import Mathlib

/-!
Verification development for the SIEM rule parser / converter in
`DaSignatureParser/conversion_intelligence.js`.

JavaScript strings are embedded as `List Char` (named `Chars`); the
per-statement behaviour of the source is translated directly.  Regular
expressions used by the source are translated into explicit backtracking
matchers with the same first-match semantics.  JavaScript objects used as
option maps are embedded as ordered association lists with
replace-in-place update, matching JS property insertion-order semantics.
The wall-clock `timestamp` field of log entries is the only field of the
source data model omitted (it is impure); no claim concerns it.
-/

set_option maxRecDepth 100000

namespace SiemConv

abbrev Chars := List Char

/-- Embed a Lean string literal as a JS character sequence. -/
def str (s : String) : Chars := s.data

/-- JS `\s` character class (ASCII part; the source only meets ASCII input). -/
def jsSpace (c : Char) : Bool :=
  c == ' ' || c == '\t' || c == '\n' || c == '\r' || c == '\x0b' || c == '\x0c'

/-- JS `\w` character class. -/
def jsWordChar (c : Char) : Bool :=
  ('a' ≤ c && c ≤ 'z') || ('A' ≤ c && c ≤ 'Z') || ('0' ≤ c && c ≤ '9') || c == '_'

/-- ASCII lower-casing of one character, as JS `toLowerCase` acts on ASCII. -/
def lowerChar (c : Char) : Char :=
  if 'A' ≤ c && c ≤ 'Z' then Char.ofNat (c.toNat + 32) else c

/-- JS `String.prototype.toLowerCase` (ASCII). -/
def toLowerStr (s : Chars) : Chars := s.map lowerChar

/-- JS `String.prototype.trim`. -/
def trim (s : Chars) : Chars :=
  ((s.dropWhile jsSpace).reverse.dropWhile jsSpace).reverse

/-- JS `String.prototype.split` with a one-character separator. -/
def splitChar (sep : Char) : Chars → List Chars
  | [] => [[]]
  | c :: cs =>
    match splitChar sep cs with
    | [] => [[]]
    | h :: t => if c = sep then [] :: h :: t else (c :: h) :: t

/-- Does `p` occur at the start of `s`? (JS `startsWith`.) -/
def leadsWith : Chars → Chars → Bool
  | [], _ => true
  | _ :: _, [] => false
  | p :: ps, c :: cs => p == c && leadsWith ps cs

/-- JS `String.prototype.includes`: does `pat` occur inside `s`? -/
def substrOf (pat : Chars) : Chars → Bool
  | [] => pat.isEmpty
  | c :: cs => leadsWith pat (c :: cs) || substrOf pat cs

/-- Length of the longest prefix of `s` whose characters satisfy `p`. -/
def countLeading (p : Char → Bool) (s : Chars) : Nat := (s.takeWhile p).length

/-- JS `String.prototype.replace` with a plain-string pattern: replaces the
first occurrence only. -/
def replaceFirst (s pat repl : Chars) : Chars :=
  match s with
  | [] => []
  | c :: cs =>
    if leadsWith pat (c :: cs) && !pat.isEmpty then
      repl ++ (c :: cs).drop pat.length
    else
      c :: replaceFirst cs pat repl

/-- Numeric value of a maximal leading run of decimal digits, if nonempty. -/
def leadingDigits (s : Chars) : Option Nat :=
  let ds := s.takeWhile (fun c => '0' ≤ c && c ≤ '9')
  if ds.isEmpty then none
  else some (ds.foldl (fun n c => n * 10 + (c.toNat - '0'.toNat)) 0)

/-- JS `parseInt` in base 10: optional sign after leading whitespace, then
leading digits; `none` stands for `NaN` (whose `<`/`>` comparisons are
false in the source). -/
def jsParseInt (s : Chars) : Option Int :=
  let t := s.dropWhile jsSpace
  match t with
  | '-' :: rest => (leadingDigits rest).map (fun n => -(n : Int))
  | '+' :: rest => (leadingDigits rest).map (fun n => (n : Int))
  | _ => (leadingDigits t).map (fun n => (n : Int))

/-- JS `Number.prototype.toString` for the integers the source produces. -/
def intToStr (i : Int) : Chars := (toString i).data

/-- JS `Number.prototype.toString` for array lengths. -/
def natToStr (n : Nat) : Chars := (toString n).data

/-! ### JS objects used as option maps

The source stores options in a plain JS object.  Property insertion keeps
insertion order; assigning an existing key updates its value in place;
`delete` removes the entry, and a later re-assignment appends at the end.
An ordered association list with the operations below has exactly this
behaviour. -/

abbrev OptObj := List (Chars × Chars)

/-- Property read: first (unique) entry with the key. -/
def objLookup (o : OptObj) (k : Chars) : Option Chars :=
  match o with
  | [] => none
  | (k', v) :: rest => if k' = k then some v else objLookup rest k

/-- Property assignment `o[k] = v`. -/
def objInsert (o : OptObj) (k v : Chars) : OptObj :=
  match o with
  | [] => [(k, v)]
  | (k', v') :: rest => if k' = k then (k', v) :: rest else (k', v') :: objInsert rest k v

/-- Property removal `delete o[k]`. -/
def objDelete (o : OptObj) (k : Chars) : OptObj :=
  match o with
  | [] => []
  | (k', v') :: rest => if k' = k then rest else (k', v') :: objDelete rest k

/-- JS truthiness of `o[k]` for string-valued properties: present and
nonempty. -/
def jsTruthy : Option Chars → Bool
  | none => false
  | some [] => false
  | some (_ :: _) => true

/-! ### Quote-aware option splitting (`SIEMRuleParser.splitOptions`) -/

/-- Scanner state of `splitOptions`: accumulated parts, current field,
`inQuotes` flag and active quote character (`none` embeds the source's
`quoteChar = ''`). -/
structure SplitState where
  parts : List Chars
  current : Chars
  inQuotes : Bool
  quoteChar : Option Char
deriving DecidableEq

/-- One loop iteration of `splitOptions` (source lines 331-350). -/
def splitStep (st : SplitState) (c : Char) : SplitState :=
  if (c == '"' || c == '\'') && !st.inQuotes then
    { st with inQuotes := true, quoteChar := some c, current := st.current ++ [c] }
  else if st.quoteChar = some c && st.inQuotes then
    { st with inQuotes := false, quoteChar := none, current := st.current ++ [c] }
  else if c == ';' && !st.inQuotes then
    if (trim st.current).isEmpty then { st with current := [] }
    else { st with parts := st.parts ++ [trim st.current], current := [] }
  else
    { st with current := st.current ++ [c] }

/-- `SIEMRuleParser.splitOptions` (source lines 325-357). -/
def splitOptions (optionsString : Chars) : List Chars :=
  let st := optionsString.foldl splitStep ⟨[], [], false, none⟩
  if (trim st.current).isEmpty then st.parts else st.parts ++ [trim st.current]

/-! ### `SIEMRuleParser.parseOptions` -/

/-- Key/value extraction for one option field (loop body of `parseOptions`,
source lines 300-319): split on the first colon, trim and lower-case the
key, strip surrounding double quotes from the value; a field without a
colon is a flag stored as `"true"`. -/
def optionKV (part : Chars) : Option (Chars × Chars) :=
  if part.elem ':' then
    let key := toLowerStr (trim (part.takeWhile (fun c => c ≠ ':')))
    let value := trim (part.drop ((part.takeWhile (fun c => c ≠ ':')).length + 1))
    let value' :=
      match value with
      | '"' :: rest => if value.getLast? = some '"' then rest.dropLast else value
      | _ => value
    some (key, value')
  else
    let key := toLowerStr (trim part)
    if key.isEmpty then none else some (key, str "true")

/-- The ordered key/value pairs produced field by field by `parseOptions`,
before JS-object collapsing of repeated keys. -/
def kvList (optionsString : Chars) : List (Chars × Chars) :=
  (splitOptions optionsString).filterMap optionKV

/-- `SIEMRuleParser.parseOptions` (source lines 294-323): the fields'
key/value pairs accumulated into a plain JS object. -/
def parseOptions (optionsString : Chars) : OptObj :=
  (kvList optionsString).foldl (fun o kv => objInsert o kv.1 kv.2) []

/-! ### Rule-shape check and rule parsing

`isValidRule` tests `/^(alert|log|pass|drop|reject|sdrop)\s+\w+\s+.*(->|<>).*\(.*\)$/`
against the trimmed line; `parseRule` uses
`/^(alert|log|pass|drop|reject|sdrop)\s+(\w+)\s+(.+)/` and
`/^(.+?)\s*(->|<>)\s*(.+?)\s*\((.+)\)$/`.  The matchers below reproduce the
JS regex first-match semantics (ordered alternation, lazy `+?`,
greedy `*`/`+` with backtracking, `.` not matching a newline, `$` at the
true end). -/

/-- The six rule actions of the alternation, none a prefix of another. -/
def actionTokens : List Chars :=
  [str "alert", str "log", str "pass", str "drop", str "reject", str "sdrop"]

/-- Match the action alternation at the start of the line. -/
def takeAction (s : Chars) : Option (Chars × Chars) :=
  (actionTokens.find? (fun a => leadsWith a s)).map (fun a => (a, s.drop a.length))

/-- `.*(->|<>).*\(.*\)$` over a newline-free remainder: some occurrence of a
direction marker is followed by a `(` that is itself followed by at least
the final `)`. -/
def markerThenParen : Chars → Bool
  | c1 :: c2 :: rest =>
    (if (c1 = '-' && c2 = '>') || (c1 = '<' && c2 = '>') then
      rest.dropLast.elem '('
    else false)
    || markerThenParen (c2 :: rest)
  | _ => false

/-- `SIEMRuleParser.isValidRule` (source lines 254-262). -/
def isValidRule (line : Chars) : Bool :=
  let t := trim line
  match t with
  | [] => false
  | '#' :: _ => false
  | _ =>
    match takeAction t with
    | none => false
    | some (_, r1) =>
      let w1 := countLeading jsSpace r1
      if w1 = 0 then false else
      let r2 := r1.drop w1
      let wd := countLeading jsWordChar r2
      if wd = 0 then false else
      let r3 := r2.drop wd
      let m := countLeading jsSpace r3
      if m = 0 then false else
      let rest := r3.drop m
      -- the three `.*` and the marker/parens must together span the rest
      -- of the line, so it must be newline-free; leading whitespace beyond
      -- one character could equally be absorbed by the first `.*`.
      !rest.isEmpty && !rest.elem '\n' && rest.getLast? = some ')' &&
        markerThenParen rest

/-- Header match `/^(alert|…)\s+(\w+)\s+(.+)/` of `parseRule` (source line
276): action, protocol, and the rest of the line up to a newline.  When
the line ends in whitespace the `\s+`/`(.+)` backtracking still matches
provided some whitespace character can be handed to `.+`. -/
def matchHeader (line : Chars) : Option (Chars × Chars × Chars) :=
  match takeAction line with
  | none => none
  | some (act, r1) =>
    let w1 := countLeading jsSpace r1
    if w1 = 0 then none else
    let r2 := r1.drop w1
    let wd := countLeading jsWordChar r2
    if wd = 0 then none else
    let proto := r2.take wd
    let r3 := r2.drop wd
    let m := countLeading jsSpace r3
    if m = 0 then none else
    let rest := r3.drop m
    if rest.isEmpty then
      -- `r3` is whitespace only: `\s+` backtracks until `.+` can take the
      -- last non-newline whitespace character, if any remains available.
      match ((r3.drop 1).filter (fun c => c ≠ '\n')).getLast? with
      | some c => some (act, proto, [c])
      | none => none
    else
      match rest.takeWhile (fun c => c ≠ '\n') with
      | [] => none
      | r => some (act, proto, r)

/-- `\((.+)\)$` after the destination: skip maximal whitespace, require
`(`, and capture the nonempty newline-free body before the final `)`. -/
def checkParen (cs : Chars) : Option Chars :=
  match cs.drop (countLeading jsSpace cs) with
  | '(' :: body =>
    if body.getLast? = some ')' && !body.dropLast.isEmpty &&
        !body.dropLast.elem '\n' then
      some body.dropLast
    else none
  | _ => none

/-- Lazy search for the destination of `\s*(.+?)\s*\((.+)\)$`: grow the
destination one (non-newline) character at a time, first success wins. -/
def destLoop (dst : Chars) : Chars → Option (Chars × Chars)
  | [] => none
  | c :: cs =>
    if c = '\n' then none else
    match checkParen cs with
    | some opts => some (dst ++ [c], opts)
    | none => destLoop (dst ++ [c]) cs

/-- Greedy-with-backtracking `\s*` before the destination: try consuming
`k` whitespace characters, largest first. -/
def destTryS (r2 : Chars) : Nat → Option (Chars × Chars)
  | 0 => destLoop [] r2
  | k + 1 =>
    match destLoop [] (r2.drop (k + 1)) with
    | some res => some res
    | none => destTryS r2 k

/-- Match `\s*(.+?)\s*\((.+)\)$` after the direction marker. -/
def matchDest (r2 : Chars) : Option (Chars × Chars) :=
  destTryS r2 (countLeading jsSpace r2)

/-- With the source fixed, match `\s*(->|<>)` then the destination and
options block. -/
def matchAfterSource (src rest : Chars) :
    Option (Chars × Chars × Chars × Chars) :=
  match rest.drop (countLeading jsSpace rest) with
  | '-' :: '>' :: r2 => (matchDest r2).map (fun p => (src, str "->", p.1, p.2))
  | '<' :: '>' :: r2 => (matchDest r2).map (fun p => (src, str "<>", p.1, p.2))
  | _ => none

/-- Lazy search for the source of `^(.+?)\s*(->|<>)…`: grow the source one
(non-newline) character at a time, first overall success wins. -/
def dirLoop (src : Chars) : Chars → Option (Chars × Chars × Chars × Chars)
  | [] => none
  | c :: cs =>
    if c = '\n' then none else
    match matchAfterSource (src ++ [c]) cs with
    | some res => some res
    | none => dirLoop (src ++ [c]) cs

/-- Direction match `/^(.+?)\s*(->|<>)\s*(.+?)\s*\((.+)\)$/` of `parseRule`
(source line 282): source, direction marker, destination and options
block. -/
def matchDirection (rest : Chars) : Option (Chars × Chars × Chars × Chars) :=
  dirLoop [] rest

/-! ### The Rule entity and `parseRule` / `parseRules` / `formatRule` -/

/-- One parsed detection rule (source lines 265-273); fields default to the
empty string / empty object exactly as in the source initialiser. -/
structure Rule where
  action : Chars := []
  protocol : Chars := []
  source : Chars := []
  destination : Chars := []
  direction : Chars := []
  options : OptObj := []
  raw : Chars := []
deriving DecidableEq

/-- Does the header and direction decomposition of `parseRule` succeed on
this line? -/
def decomposes (line : Chars) : Bool :=
  match matchHeader line with
  | none => false
  | some (_, _, rest) => (matchDirection rest).isSome

/-- `SIEMRuleParser.parseRule` (source lines 264-292).  Note that the
source returns the partially-filled rule object even when the header or
direction match fails. -/
def parseRule (ruleLine : Chars) : Rule :=
  let base : Rule := { raw := trim ruleLine }
  match matchHeader ruleLine with
  | none => base
  | some (act, proto, rest) =>
    let r1 := { base with action := act, protocol := proto }
    match matchDirection rest with
    | none => r1
    | some (src, dir, dst, opts) =>
      { r1 with
        source := trim src
        direction := dir
        destination := trim dst
        options := parseOptions opts }

/-- `SIEMRuleParser.parseRules` (source lines 359-370): split into lines,
keep the valid ones, parse each. -/
def parseRules (rulesText : Chars) : List Rule :=
  ((splitChar '\n' rulesText).filter isValidRule).map parseRule

/-- Formatting of one option entry (loop body of `formatRule`, source lines
375-386). -/
def formatOption (kv : Chars × Chars) : Chars :=
  if kv.2 = str "true" then kv.1
  else if kv.2.elem ' ' || kv.2.elem '|' then
    kv.1 ++ str ":\"" ++ kv.2 ++ str "\""
  else
    kv.1 ++ str ":" ++ kv.2

/-- `SIEMRuleParser.formatRule` (source lines 372-390). -/
def formatRule (rule : Rule) : Chars :=
  let optionsString := List.intercalate (str "; ") (rule.options.map formatOption)
  rule.action ++ str " " ++ rule.protocol ++ str " " ++ rule.source ++ str " " ++
    rule.direction ++ str " " ++ rule.destination ++ str " (" ++ optionsString ++ str ";)"

/-! ### Dialect classifier (`SIEMRuleParser.detectRuleType`) -/

/-- Search for `/alert\s+(http|tls|dns|smtp|ftp)\s+/i` at one position of
the lower-cased line. -/
def protoHeaderAt (s : Chars) : Bool :=
  if leadsWith (str "alert") s then
    let r := s.drop 5
    let w := countLeading jsSpace r
    if w = 0 then false else
    let r2 := r.drop w
    [str "http", str "tls", str "dns", str "smtp", str "ftp"].any (fun tok =>
      leadsWith tok r2 &&
        match (r2.drop tok.length).head? with
        | some c => jsSpace c
        | none => false)
  else false

/-- Unanchored case-insensitive search for the application-layer header
pattern (source line 243). -/
def protoHeaderHit (line : Chars) : Bool :=
  (List.range (toLowerStr line).length).any (fun i =>
    protoHeaderAt ((toLowerStr line).drop i))

/-- Snort-side score contribution of one valid line (source lines 212-224). -/
def lineSnortScore (line : Chars) : Nat :=
  (if substrOf (str "fast_pattern") line || substrOf (str "openappid") line ||
      substrOf (str "appid:") line then 3 else 0) +
  (if substrOf (str "http.content") line || substrOf (str "http.method") line
    then 2 else 0) +
  (if substrOf (str "metadata:") line && !substrOf (str "http.") line &&
      !substrOf (str "tls.") line then 2 else 0) +
  (if substrOf (str "urilen:") line || substrOf (str "!0,relative") line
    then 1 else 0)

/-- Suricata-side score contribution of one valid line (source lines
227-244). -/
def lineSuricataScore (line : Chars) : Nat :=
  (if substrOf (str "http.request_body") line ||
      substrOf (str "http.user_agent") line ||
      substrOf (str "dns.query") line then 3 else 0) +
  (if substrOf (str "bsize:") line || substrOf (str "tls.") line ||
      substrOf (str "file_") line then 2 else 0) +
  (if substrOf (str "filestore") line || substrOf (str "fileext") line ||
      substrOf (str "filemagic") line || substrOf (str "filemd5") line ||
      substrOf (str "filesha1") line || substrOf (str "filesha256") line
    then 3 else 0) +
  (if substrOf (str "!1,relative") line || substrOf (str "tls.subject") line ||
      substrOf (str "tls.issuerdn") line then 1 else 0) +
  (if protoHeaderHit line then 2 else 0)

/-- The nonblank lines whose scores `detectRuleType` accumulates. -/
def scoredLines (rules : Chars) : List Chars :=
  ((splitChar '\n' rules).filter (fun l => !(trim l).isEmpty)).filter isValidRule

/-- Accumulated Snort score of `detectRuleType`. -/
def snortScore (rules : Chars) : Nat :=
  ((scoredLines rules).map lineSnortScore).sum

/-- Accumulated Suricata score of `detectRuleType`. -/
def suricataScore (rules : Chars) : Nat :=
  ((scoredLines rules).map lineSuricataScore).sum

/-- `SIEMRuleParser.detectRuleType` (source lines 204-252). -/
def detectRuleType (rules : Chars) : Chars :=
  if snortScore rules > suricataScore rules then str "snort"
  else if suricataScore rules > snortScore rules then str "suricata"
  else str "unknown"

/-! ### Conversion log and heuristic predicates (`SIEMRuleConverter`) -/

/-- One conversion log entry (source lines 398-405); the wall-clock
timestamp is omitted. -/
structure LogEntry where
  message : Chars
  severity : Chars
deriving DecidableEq

/-- Build a log entry, as `SIEMRuleConverter.log`. -/
def mkLog (message severity : Chars) : LogEntry := ⟨message, severity⟩

/-- `SIEMRuleConverter.isWebTraffic` (source lines 697-711). -/
def isWebTraffic (rule : Rule) : Bool :=
  let content := (objLookup rule.options (str "content")).getD []
  let msg := (objLookup rule.options (str "msg")).getD []
  substrOf (str "http") content || substrOf (str "/") content ||
    substrOf (str "web") (toLowerStr msg) ||
    substrOf (str "http") (toLowerStr msg) ||
    substrOf (str "80") rule.destination ||
    substrOf (str "8080") rule.destination ||
    substrOf (str "443") rule.destination

/-- `SIEMRuleConverter.isTLSTraffic` (source lines 713-725). -/
def isTLSTraffic (rule : Rule) : Bool :=
  let content := (objLookup rule.options (str "content")).getD []
  let msg := (objLookup rule.options (str "msg")).getD []
  substrOf (str "tls") content || substrOf (str "ssl") content ||
    substrOf (str "tls") (toLowerStr msg) ||
    substrOf (str "ssl") (toLowerStr msg) ||
    substrOf (str "443") rule.destination

/-- `SIEMRuleConverter.isDNSTraffic` (source lines 727-740). -/
def isDNSTraffic (rule : Rule) : Bool :=
  let content := (objLookup rule.options (str "content")).getD []
  let msg := (objLookup rule.options (str "msg")).getD []
  substrOf (str ".com") content || substrOf (str ".org") content ||
    substrOf (str ".net") content ||
    substrOf (str "dns") (toLowerStr msg) ||
    substrOf (str "query") (toLowerStr msg) ||
    substrOf (str "53") rule.destination

/-- `SIEMRuleConverter.isFileContent` (source lines 742-756). -/
def isFileContent (rule : Rule) : Bool :=
  let content := (objLookup rule.options (str "content")).getD []
  let msg := (objLookup rule.options (str "msg")).getD []
  substrOf (str ".exe") content || substrOf (str ".pdf") content ||
    substrOf (str ".doc") content || substrOf (str "MZ") content ||
    substrOf (str "PK") content ||
    substrOf (str "file") (toLowerStr msg) ||
    substrOf (str "upload") (toLowerStr msg) ||
    substrOf (str "malware") (toLowerStr msg)

/-! ### Single-rule conversion

Each commented block of `convertSingleRuleToSnort` /
`convertSingleRuleToSuricata` is one `Pass` acting on the working state:
the local `options` copy, the protocol of the `convertedRule` copy, and
the entries pushed to the conversion log.  Each pass also sees the
original `rule` parameter, used by the source for the heuristic
predicates and the protocol tests. -/

/-- Working state of a single-rule conversion. -/
structure CState where
  opts : OptObj
  protocol : Chars
  logs : List LogEntry
deriving DecidableEq

/-- A conversion pass: original rule and working state to new state. -/
abbrev Pass := Rule → CState → CState

/-- Truthiness of an option in the working copy. -/
def optTruthy (st : CState) (k : Chars) : Bool := jsTruthy (objLookup st.opts k)

/-- Append one log entry. -/
def pushLog (st : CState) (message severity : Chars) : CState :=
  { st with logs := st.logs ++ [mkLog message severity] }

/-- Snort lines 466-470: `http_uri` handling. -/
def httpUriPass : Pass := fun _ st =>
  if optTruthy st (str "http_uri") then
    let st := pushLog st (str "Converting http.uri to http.uri content matching") (str "info")
    { st with opts := objInsert st.opts (str "http_uri") (str "true") }
  else st

/-- Snort lines 472-481: `http_user_agent` handling. -/
def httpUserAgentPass : Pass := fun _ st =>
  if optTruthy st (str "http_user_agent") then
    let st := pushLog st
      (str "Converting http.user_agent to http.header with User-Agent pattern")
      (str "warning")
    let o1 := objDelete st.opts (str "http_user_agent")
    let o2 := if jsTruthy (objLookup o1 (str "content")) then
        objInsert o1 (str "http.header") (str "true")
      else o1
    { st with opts := o2 }
  else st

/-- Snort lines 483-489: `http_cookie` handling. -/
def httpCookiePass : Pass := fun _ st =>
  if optTruthy st (str "http_cookie") then
    let st := pushLog st
      (str "Converting http.cookie to http.header with Cookie pattern") (str "warning")
    let o1 := objDelete st.opts (str "http_cookie")
    let o2 := if jsTruthy (objLookup o1 (str "content")) then
        objInsert o1 (str "http.header") (str "true")
      else o1
    { st with opts := o2 }
  else st

/-- Snort lines 491-494: `http_header` is only logged. -/
def httpHeaderInfoPass : Pass := fun _ st =>
  if optTruthy st (str "http_header") then
    pushLog st (str "Converting http.header to http.header (compatible)") (str "info")
  else st

/-- Snort lines 497-501: `http_request_body` handling. -/
def httpRequestBodyPass : Pass := fun _ st =>
  if optTruthy st (str "http_request_body") then
    let st := pushLog st (str "Converting http.request_body to http.content") (str "info")
    let o1 := objInsert st.opts (str "http.content") (str "true")
    { st with opts := objDelete o1 (str "http_request_body") }
  else st

/-- Snort lines 504-512: TLS options are dropped. -/
def tlsDropPass : Pass := fun _ st =>
  if optTruthy st (str "tls_cert_subject") || optTruthy st (str "tls_fingerprint") ||
      optTruthy st (str "tls_version") || optTruthy st (str "tls_subject") ||
      optTruthy st (str "tls_issuerdn") then
    let st := pushLog st (str "Converting Suricata TLS options to content matching")
      (str "warning")
    { st with opts :=
        objDelete (objDelete (objDelete (objDelete (objDelete st.opts
          (str "tls_cert_subject")) (str "tls_fingerprint")) (str "tls_version"))
          (str "tls_subject")) (str "tls_issuerdn") }
  else st

/-- Snort lines 515-526: file-extraction options are dropped. -/
def fileDropPass : Pass := fun _ st =>
  if optTruthy st (str "file_data") || optTruthy st (str "file_ext") ||
      optTruthy st (str "filestore") || optTruthy st (str "fileext") ||
      optTruthy st (str "filemagic") || optTruthy st (str "filemd5") ||
      optTruthy st (str "filesha1") || optTruthy st (str "filesha256") then
    let st := pushLog st
      (str "Converting Suricata file extraction options to content matching")
      (str "warning")
    { st with opts :=
        objDelete (objDelete (objDelete (objDelete (objDelete (objDelete
          (objDelete (objDelete st.opts (str "file_data")) (str "file_ext"))
          (str "filestore")) (str "fileext")) (str "filemagic")) (str "filemd5"))
          (str "filesha1")) (str "filesha256") }
  else st

/-- Snort lines 529-538: application-layer protocols are rewritten; the
tests read the original rule's protocol. -/
def protocolToSnortPass : Pass := fun rule st =>
  if toLowerStr rule.protocol = str "http" then
    let st := pushLog st (str "Converting HTTP protocol to TCP for Snort") (str "warning")
    { st with protocol := str "tcp" }
  else if toLowerStr rule.protocol = str "dns" then
    let st := pushLog st (str "Converting DNS protocol to UDP for Snort") (str "warning")
    { st with protocol := str "udp" }
  else if toLowerStr rule.protocol = str "tls" || toLowerStr rule.protocol = str "smtp" ||
      toLowerStr rule.protocol = str "ftp" then
    let st := pushLog st
      (str "Converting " ++ rule.protocol ++ str " protocol to TCP for Snort")
      (str "warning")
    { st with protocol := str "tcp" }
  else st

/-- Snort lines 541-544: `dns_query` is dropped. -/
def dnsQueryDropPass : Pass := fun _ st =>
  if optTruthy st (str "dns_query") then
    let st := pushLog st (str "Converting dns.query to content matching") (str "warning")
    { st with opts := objDelete st.opts (str "dns_query") }
  else st

/-- Snort lines 547-551: SIDs below 1,000,000 are raised by 1,000,000. -/
def sidSnortPass : Pass := fun _ st =>
  match objLookup st.opts (str "sid") with
  | none => st
  | some v =>
    if v.isEmpty then st else
    match jsParseInt v with
    | none => st
    | some n =>
      if n < 1000000 then
        let newSid := n + 1000000
        let st := pushLog st
          (str "Adjusting SID from " ++ v ++ str " to " ++ intToStr newSid ++
            str " for Snort compatibility") (str "warning")
        { st with opts := objInsert st.opts (str "sid") (intToStr newSid) }
      else st

/-- Snort lines 554-557: a `reference` is injected for malware rules. -/
def referencePass : Pass := fun _ st =>
  if !optTruthy st (str "reference") &&
      (optTruthy st (str "msg") &&
        substrOf (str "malware")
          (toLowerStr ((objLookup st.opts (str "msg")).getD []))) then
    let o1 := objInsert st.opts (str "reference") (str "url,virustotal.com")
    let st := { st with opts := o1 }
    pushLog st (str "Added reference URL for malware detection rule") (str "info")
  else st

/-- Snort lines 560-563: `classtype` is only logged. -/
def classtypePass : Pass := fun _ st =>
  if optTruthy st (str "classtype") &&
      !substrOf (str "web-application-attack")
        ((objLookup st.opts (str "classtype")).getD []) then
    pushLog st (str "Preserving classtype for Snort compatibility") (str "info")
  else st

/-- Snort lines 566-569: `urilen` is only logged. -/
def urilenSnortPass : Pass := fun _ st =>
  if optTruthy st (str "urilen") then
    pushLog st
      (str "Converting urilen range from Suricata (exclusive) to Snort (inclusive)")
      (str "warning")
  else st

/-- Snort lines 572-575: `isdataat` relative marker swap. -/
def isdataatSnortPass : Pass := fun _ st =>
  let v := (objLookup st.opts (str "isdataat")).getD []
  if optTruthy st (str "isdataat") && substrOf (str "!1,relative") v then
    let st := pushLog st
      (str "Converting isdataat from Suricata (!1,relative) to Snort (!0,relative)")
      (str "warning")
    let v' := replaceFirst v (str "!1,relative") (str "!0,relative")
    { st with opts := objInsert st.opts (str "isdataat") v' }
  else st

/-- The passes of `convertSingleRuleToSnort`, in source order. -/
def snortPasses : List Pass :=
  [httpUriPass, httpUserAgentPass, httpCookiePass, httpHeaderInfoPass,
   httpRequestBodyPass, tlsDropPass, fileDropPass, protocolToSnortPass,
   dnsQueryDropPass, sidSnortPass, referencePass, classtypePass,
   urilenSnortPass, isdataatSnortPass]

/-- Suricata lines 586-589: `fast_pattern` is removed. -/
def fastPatternPass : Pass := fun _ st =>
  if optTruthy st (str "fast_pattern") then
    let st := pushLog st (str "Removing fast_pattern (not needed in Suricata)") (str "info")
    { st with opts := objDelete st.opts (str "fast_pattern") }
  else st

/-- Suricata lines 591-595: OpenAppID options are removed. -/
def appidPass : Pass := fun _ st =>
  if optTruthy st (str "openappid") || optTruthy st (str "appid") then
    let st := pushLog st (str "Converting OpenAppID to protocol detection") (str "warning")
    { st with opts := objDelete (objDelete st.opts (str "openappid")) (str "appid") }
  else st

/-- Suricata lines 598-601: `flowbits` is only logged. -/
def flowbitsPass : Pass := fun _ st =>
  if optTruthy st (str "flowbits") then
    pushLog st (str "Preserving flowbits (compatible with Suricata)") (str "info")
  else st

/-- Suricata lines 604-607: `pcre` is only logged. -/
def pcrePass : Pass := fun _ st =>
  if optTruthy st (str "pcre") then
    pushLog st (str "Preserving PCRE pattern (compatible with Suricata)") (str "info")
  else st

/-- Suricata lines 610-614: `http_content` becomes `http.request_body`. -/
def httpContentPass : Pass := fun _ st =>
  if optTruthy st (str "http_content") then
    let st := pushLog st (str "Converting http.content to http.request_body") (str "info")
    let o1 := objInsert st.opts (str "http.request_body") (str "true")
    { st with opts := objDelete o1 (str "http_content") }
  else st

/-- Suricata lines 617-625: TCP is promoted to HTTP under the web-traffic
heuristic on the original rule. -/
def webPromotePass : Pass := fun rule st =>
  if toLowerStr rule.protocol = str "tcp" && isWebTraffic rule then
    let st := pushLog st (str "Converting TCP to HTTP protocol for better detection")
      (str "info")
    let st := { st with protocol := str "http" }
    let c := (objLookup st.opts (str "content")).getD []
    if optTruthy st (str "content") &&
        (substrOf (str "/") c || substrOf (str "http") c) then
      { st with opts := objInsert st.opts (str "http_uri") (str "true") }
    else st
  else st

/-- Suricata lines 627-630: TCP is promoted to TLS under the TLS heuristic. -/
def tlsPromotePass : Pass := fun rule st =>
  if toLowerStr rule.protocol = str "tcp" && isTLSTraffic rule then
    let st := pushLog st (str "Converting TCP to TLS protocol for better detection")
      (str "info")
    { st with protocol := str "tls" }
  else st

/-- Suricata lines 633-641: UDP is promoted to DNS under the DNS heuristic. -/
def dnsPromotePass : Pass := fun rule st =>
  if toLowerStr rule.protocol = str "udp" && isDNSTraffic rule then
    let st := pushLog st (str "Converting UDP to DNS protocol for better detection")
      (str "info")
    let st := { st with protocol := str "dns" }
    if optTruthy st (str "content") && !optTruthy st (str "dns_query") then
      { st with opts := objInsert st.opts (str "dns_query") (str "true") }
    else st
  else st

/-- Suricata lines 644-661: generic `http_header` is specialised using the
content payload. -/
def httpHeaderOptimizePass : Pass := fun _ st =>
  if optTruthy st (str "http_header") && optTruthy st (str "content") then
    let c := toLowerStr ((objLookup st.opts (str "content")).getD [])
    if substrOf (str "user-agent") c || substrOf (str "mozilla") c then
      let st := pushLog st
        (str "Converting generic http.header to specific http.user_agent") (str "info")
      let o1 := objDelete (objInsert st.opts (str "http_user_agent") (str "true"))
        (str "http_header")
      let st := { st with opts := o1 }
      if substrOf (str "mozilla/5.0") c then
        let st := { st with opts := objInsert st.opts (str "bsize") (str "11") }
        pushLog st (str "Added bsize:11 optimization for User-Agent matching") (str "info")
      else st
    else if substrOf (str "cookie") c then
      let st := pushLog st
        (str "Converting generic http.header to specific http.cookie") (str "info")
      let o1 := objDelete (objInsert st.opts (str "http_cookie") (str "true")) (str "http_header")
      { st with opts := o1 }
    else st
  else st

/-- Suricata lines 664-668: SIDs above 1,000,000 are lowered by 1,000,000. -/
def sidSuricataPass : Pass := fun _ st =>
  match objLookup st.opts (str "sid") with
  | none => st
  | some v =>
    if v.isEmpty then st else
    match jsParseInt v with
    | none => st
    | some n =>
      if n > 1000000 then
        let newSid := n - 1000000
        let st := pushLog st
          (str "Adjusting SID from " ++ v ++ str " to " ++ intToStr newSid ++
            str " for Suricata compatibility") (str "warning")
        { st with opts := objInsert st.opts (str "sid") (intToStr newSid) }
      else st

/-- Suricata lines 671-674: `file_data` is added under the file heuristic. -/
def fileAddPass : Pass := fun rule st =>
  if optTruthy st (str "content") && isFileContent rule then
    let st := pushLog st (str "Adding file detection capabilities for Suricata")
      (str "info")
    { st with opts := objInsert st.opts (str "file_data") (str "true") }
  else st

/-- Suricata lines 677-680: `urilen` is only logged. -/
def urilenSuricataPass : Pass := fun _ st =>
  if optTruthy st (str "urilen") then
    pushLog st
      (str "Converting urilen range from Snort (inclusive) to Suricata (exclusive)")
      (str "warning")
  else st

/-- Suricata lines 683-686: `isdataat` relative marker swap. -/
def isdataatSuricataPass : Pass := fun _ st =>
  let v := (objLookup st.opts (str "isdataat")).getD []
  if optTruthy st (str "isdataat") && substrOf (str "!0,relative") v then
    let st := pushLog st
      (str "Converting isdataat from Snort (!0,relative) to Suricata (!1,relative)")
      (str "warning")
    let v' := replaceFirst v (str "!0,relative") (str "!1,relative")
    { st with opts := objInsert st.opts (str "isdataat") v' }
  else st

/-- Suricata lines 689-691: a metadata marker is added, with no log entry. -/
def metadataPass : Pass := fun _ st =>
  if !optTruthy st (str "metadata") then
    { st with opts := objInsert st.opts (str "metadata") (str "converted_from_snort") }
  else st

/-- The passes of `convertSingleRuleToSuricata`, in source order. -/
def suricataPasses : List Pass :=
  [fastPatternPass, appidPass, flowbitsPass, pcrePass, httpContentPass,
   webPromotePass, tlsPromotePass, dnsPromotePass, httpHeaderOptimizePass,
   sidSuricataPass, fileAddPass, urilenSuricataPass, isdataatSuricataPass,
   metadataPass]

/-- Run a pass list over the working state. -/
def runPasses (rule : Rule) (passes : List Pass) (st : CState) : CState :=
  passes.foldl (fun s p => p rule s) st

/-- `convertSingleRuleToSnort` up to its final `formatRule` call: the new
rule (`{...rule}` with the reassigned protocol and options copy) plus the
log entries pushed. -/
def convertSingleRuleToSnortCore (rule : Rule) : Rule × List LogEntry :=
  let st := runPasses rule snortPasses ⟨rule.options, rule.protocol, []⟩
  ({ rule with options := st.opts, protocol := st.protocol }, st.logs)

/-- `SIEMRuleConverter.convertSingleRuleToSnort` (source lines 461-579). -/
def convertSingleRuleToSnort (rule : Rule) : Chars × List LogEntry :=
  let (r, logs) := convertSingleRuleToSnortCore rule
  (formatRule r, logs)

/-- `convertSingleRuleToSuricata` up to its final `formatRule` call. -/
def convertSingleRuleToSuricataCore (rule : Rule) : Rule × List LogEntry :=
  let st := runPasses rule suricataPasses ⟨rule.options, rule.protocol, []⟩
  ({ rule with options := st.opts, protocol := st.protocol }, st.logs)

/-- `SIEMRuleConverter.convertSingleRuleToSuricata` (source lines 581-695). -/
def convertSingleRuleToSuricata (rule : Rule) : Chars × List LogEntry :=
  let (r, logs) := convertSingleRuleToSuricataCore rule
  (formatRule r, logs)

/-! ### Batch conversion with per-rule exception isolation

The loop body of `convertToSnort` / `convertToSuricata` wraps the single
rule conversion in `try/catch`: embedded as a conversion function valued
in `Except`, whose `error` carries the JS exception message.  (Every
operation the single-rule converters perform on a parsed rule is total,
so the actual converters are wrapped with `Except.ok`.) -/

/-- The `rule.options.sid || 'unknown'` display in the success log. -/
def sidDisplay (rule : Rule) : Chars :=
  match objLookup rule.options (str "sid") with
  | some v => if v.isEmpty then str "unknown" else v
  | none => str "unknown"

/-- Loop body of the batch converters (source lines 422-432 / 445-455):
emit the converted text and logs, or catch, log an `error` entry and fall
back to the original rule's formatting. -/
def tryConvert (f : Rule → Except Chars (Chars × List LogEntry)) (rule : Rule) :
    Chars × List LogEntry :=
  match f rule with
  | .ok (txt, logs) =>
    (txt, logs ++ [mkLog (str "Converted rule SID " ++ sidDisplay rule) (str "success")])
  | .error e =>
    (formatRule rule, [mkLog (str "Error converting rule: " ++ e) (str "error")])

/-- Per-rule outputs of `convertToSnort`. -/
def convertToSnortPairs (rulesText : Chars) : List (Chars × List LogEntry) :=
  (parseRules rulesText).map
    (tryConvert (fun r => Except.ok (convertSingleRuleToSnort r)))

/-- The converted rule lines of `convertToSnort`, before joining. -/
def convertToSnortList (rulesText : Chars) : List Chars :=
  (convertToSnortPairs rulesText).map Prod.fst

/-- The full conversion log of `convertToSnort` (source lines 415-434). -/
def convertToSnortLog (rulesText : Chars) : List LogEntry :=
  mkLog (str "Starting conversion to Snort format...") (str "info") ::
    ((convertToSnortPairs rulesText).map Prod.snd).flatten ++
    [mkLog (str "Conversion complete. " ++ natToStr (convertToSnortList rulesText).length ++
      str " rules processed.") (str "info")]

/-- Return value of `convertToSnort`: the newline-joined converted rules. -/
def convertToSnortText (rulesText : Chars) : Chars :=
  List.intercalate (str "\n") (convertToSnortList rulesText)

/-- Per-rule outputs of `convertToSuricata`. -/
def convertToSuricataPairs (rulesText : Chars) : List (Chars × List LogEntry) :=
  (parseRules rulesText).map
    (tryConvert (fun r => Except.ok (convertSingleRuleToSuricata r)))

/-- The converted rule lines of `convertToSuricata`, before joining. -/
def convertToSuricataList (rulesText : Chars) : List Chars :=
  (convertToSuricataPairs rulesText).map Prod.fst

/-- The full conversion log of `convertToSuricata` (source lines 438-457). -/
def convertToSuricataLog (rulesText : Chars) : List LogEntry :=
  mkLog (str "Starting conversion to Suricata format...") (str "info") ::
    ((convertToSuricataPairs rulesText).map Prod.snd).flatten ++
    [mkLog (str "Conversion complete. " ++
      natToStr (convertToSuricataList rulesText).length ++ str " rules processed.")
      (str "info")]

/-- Return value of `convertToSuricata`: the newline-joined converted rules. -/
def convertToSuricataText (rulesText : Chars) : Chars :=
  List.intercalate (str "\n") (convertToSuricataList rulesText)

/-! ### Heap model of the conversion's object discipline

Whether `convertSingleRuleToSnort` / `convertSingleRuleToSuricata` mutate
the input rule is an aliasing question about the JS heap: the source
builds `convertedRule = {...rule}` (a shallow copy whose `options` field
still aliases the original options object) and `options = {...rule.options}`
(a fresh copy), and then mutates only the copy.  To state this, option
objects live in an explicit heap and a rule holds a reference to its
options object; every property write of the source becomes a heap write
on some reference. -/

/-- A heap of option objects, with a bump allocator. -/
structure JsHeap where
  store : List (Nat × OptObj)
  next : Nat
deriving DecidableEq

/-- All live references are below the allocation counter. -/
def heapWF (h : JsHeap) : Prop := ∀ p ∈ h.store, p.1 < h.next

/-- Dereference an options object. -/
def hLookup (h : JsHeap) (ref : Nat) : Option OptObj :=
  (h.store.find? (fun p => p.1 = ref)).map Prod.snd

/-- Overwrite the object at a reference. -/
def hSet (h : JsHeap) (ref : Nat) (o : OptObj) : JsHeap :=
  { h with store := h.store.map (fun p => if p.1 = ref then (ref, o) else p) }

/-- Allocate a fresh object (the spread copy `{...obj}`). -/
def hAlloc (h : JsHeap) (o : OptObj) : JsHeap × Nat :=
  ({ store := h.store ++ [(h.next, o)], next := h.next + 1 }, h.next)

/-- A rule whose `options` field is a heap reference. -/
structure RuleH where
  action : Chars := []
  protocol : Chars := []
  source : Chars := []
  destination : Chars := []
  direction : Chars := []
  optionsRef : Nat := 0
  raw : Chars := []
deriving DecidableEq

/-- Read a rule's fields plus its current options object out of the heap,
as the source does when it passes `rule` to a predicate or reads
`rule.options`. -/
def ruleVal (h : JsHeap) (r : RuleH) : Rule :=
  { action := r.action, protocol := r.protocol, source := r.source,
    destination := r.destination, direction := r.direction,
    options := (hLookup h r.optionsRef).getD [], raw := r.raw }

/-- Run the conversion passes with the working `options` object held in
the heap at `wRef`: each pass reads the original rule and the current
working object out of the heap and writes the updated object back. -/
def runPassesHeap (rh : RuleH) (passes : List Pass) (h : JsHeap) (wRef : Nat)
    (proto : Chars) (logs : List LogEntry) : JsHeap × Chars × List LogEntry :=
  match passes with
  | [] => (h, proto, logs)
  | p :: rest =>
    let st := p (ruleVal h rh) ⟨(hLookup h wRef).getD [], proto, logs⟩
    runPassesHeap rh rest (hSet h wRef st.opts) wRef st.protocol st.logs

/-- Heap semantics of `convertSingleRuleToSnort`: spread-copy the original
options object into a fresh one, run the passes mutating the copy, and
return the new rule pointing at the copy. -/
def convertSingleRuleToSnortHeap (h : JsHeap) (rh : RuleH) :
    JsHeap × RuleH × List LogEntry :=
  let alloc := hAlloc h ((hLookup h rh.optionsRef).getD [])
  let res := runPassesHeap rh snortPasses alloc.1 alloc.2 rh.protocol []
  (res.1, { rh with protocol := res.2.1, optionsRef := alloc.2 }, res.2.2)

/-- Heap semantics of `convertSingleRuleToSuricata`. -/
def convertSingleRuleToSuricataHeap (h : JsHeap) (rh : RuleH) :
    JsHeap × RuleH × List LogEntry :=
  let alloc := hAlloc h ((hLookup h rh.optionsRef).getD [])
  let res := runPassesHeap rh suricataPasses alloc.1 alloc.2 rh.protocol []
  (res.1, { rh with protocol := res.2.1, optionsRef := alloc.2 }, res.2.2)

/-! ## Helper lemmas -/

theorem objLookup_objInsert (o : OptObj) (k k' v : Chars) :
    objLookup (objInsert o k' v) k =
      if k' = k then some v else objLookup o k := by
  induction o with
  | nil => by_cases h : k' = k <;> simp [objInsert, objLookup, h]
  | cons a rest ih =>
    obtain ⟨ka, va⟩ := a
    by_cases h1 : ka = k'
    · subst h1
      by_cases h2 : ka = k <;> simp [objInsert, objLookup, h2]
    · by_cases h2 : ka = k
      · subst h2
        have hk : ¬ k' = ka := fun hh => h1 hh.symm
        simp [objInsert, objLookup, h1, hk]
      · simp [objInsert, objLookup, h1, h2, ih]

theorem objLookup_objInsert_ne (o : OptObj) (k k' v : Chars) (h : k' ≠ k) :
    objLookup (objInsert o k' v) k = objLookup o k := by
  simp [objLookup_objInsert, h]

theorem objLookup_objInsert_self (o : OptObj) (k v : Chars) :
    objLookup (objInsert o k v) k = some v := by
  simp [objLookup_objInsert]

theorem objLookup_objDelete_ne (o : OptObj) (k k' : Chars) (h : k' ≠ k) :
    objLookup (objDelete o k') k = objLookup o k := by
  induction o with
  | nil => simp [objDelete]
  | cons a rest ih =>
    obtain ⟨ka, va⟩ := a
    by_cases h1 : ka = k'
    · subst h1
      simp [objDelete, objLookup, h]
    · by_cases h2 : ka = k
      · subst h2
        simp [objDelete, objLookup, h1]
      · simp [objDelete, objLookup, h1, h2, ih]

theorem splitChar_no_sep (sep : Char) (cs : Chars) (h : sep ∉ cs) :
    splitChar sep cs = [cs] := by
  induction cs with
  | nil => simp [splitChar]
  | cons c rest ih =>
    have hc : c ≠ sep := fun hc => h (hc ▸ List.mem_cons_self c rest)
    have hrest : sep ∉ rest := fun hm => h (List.mem_cons_of_mem c hm)
    simp [splitChar, ih hrest, hc]

theorem hLookup_mem_lt (h : JsHeap) (ref : Nat) (o : OptObj) (hwf : heapWF h)
    (ho : hLookup h ref = some o) : ref < h.next := by
  unfold hLookup at ho
  cases hf : h.store.find? (fun p => p.1 = ref) with
  | none => simp [hf] at ho
  | some p =>
    have hm := List.mem_of_find?_eq_some hf
    have hp : p.1 = ref := by
      have := List.find?_some hf
      simpa using this
    exact hp ▸ hwf p hm

theorem hLookup_append_fresh (h : JsHeap) (o : OptObj) (ref : Nat)
    (hlt : ref < h.next) :
    hLookup ⟨h.store ++ [(h.next, o)], h.next + 1⟩ ref = hLookup h ref := by
  unfold hLookup
  simp only [List.find?_append]
  cases hf : h.store.find? (fun p => p.1 = ref) with
  | some p => simp [hf]
  | none =>
    have : ¬ h.next = ref := fun hh => absurd (hh ▸ hlt) (lt_irrefl _)
    simp [hf, List.find?, this]

theorem find?_set_ne (l : List (Nat × OptObj)) (wRef ref : Nat) (o : OptObj)
    (hne : ref ≠ wRef) :
    (l.map (fun p => if p.1 = wRef then (wRef, o) else p)).find?
        (fun p => p.1 = ref) =
      l.find? (fun p => p.1 = ref) := by
  induction l with
  | nil => rfl
  | cons p rest ih =>
    obtain ⟨kp, vp⟩ := p
    by_cases h1 : kp = wRef
    · subst h1
      have h2 : ¬ kp = ref := fun hh => hne hh.symm
      simp [List.find?, h2, ih]
    · by_cases h2 : kp = ref
      · subst h2
        simp [List.find?, h1]
      · simp [List.find?, h1, h2, ih]

theorem hLookup_hSet_ne (h : JsHeap) (wRef : Nat) (o : OptObj) (ref : Nat)
    (hne : ref ≠ wRef) : hLookup (hSet h wRef o) ref = hLookup h ref := by
  unfold hLookup hSet
  rw [find?_set_ne h.store wRef ref o hne]

theorem runPassesHeap_frame (rh : RuleH) (passes : List Pass) (h : JsHeap)
    (wRef : Nat) (proto : Chars) (logs : List LogEntry) (ref : Nat)
    (hne : ref ≠ wRef) :
    hLookup (runPassesHeap rh passes h wRef proto logs).1 ref = hLookup h ref := by
  induction passes generalizing h proto logs with
  | nil => simp [runPassesHeap]
  | cons p rest ih =>
    simp only [runPassesHeap]
    rw [ih, hLookup_hSet_ne _ _ _ _ hne]

/-! ## Claim theorems -/

/-- C9: `detectRuleType` returns `unknown` exactly when the accumulated
Snort score equals the accumulated Suricata score (in particular for input
with no valid lines or with no matched keywords, where both scores are 0),
and returns `snort` / `suricata` exactly when that side's score is
strictly greater. -/
theorem detect_rule_type_strict_majority (rules : Chars) :
    (detectRuleType rules = str "unknown" ↔ snortScore rules = suricataScore rules) ∧
    (detectRuleType rules = str "snort" ↔ snortScore rules > suricataScore rules) ∧
    (detectRuleType rules = str "suricata" ↔ suricataScore rules > snortScore rules) := by
  unfold detectRuleType
  split_ifs with h1 h2
  · exact ⟨iff_of_false (by decide) (by omega), iff_of_true rfl h1,
      iff_of_false (by decide) (by omega)⟩
  · exact ⟨iff_of_false (by decide) (by omega), iff_of_false (by decide) h1,
      iff_of_true rfl h2⟩
  · exact ⟨iff_of_true rfl (by omega), iff_of_false (by decide) h1,
      iff_of_false (by decide) h2⟩

/-- C10: neither single-rule converter mutates the input rule: the
original options object in the heap is unchanged by both conversions (the
source copies `{...rule}` and `{...rule.options}` and mutates only the
copies), so the original rule stays available for the fallback path. -/
theorem conversion_preserves_original_rule (h : JsHeap) (rh : RuleH) (o : OptObj)
    (hwf : heapWF h) (ho : hLookup h rh.optionsRef = some o) :
    hLookup (convertSingleRuleToSnortHeap h rh).1 rh.optionsRef = some o ∧
    hLookup (convertSingleRuleToSuricataHeap h rh).1 rh.optionsRef = some o := by
  have hlt := hLookup_mem_lt h rh.optionsRef o hwf ho
  have hne : rh.optionsRef ≠ h.next := fun hh => absurd (hh ▸ hlt) (lt_irrefl _)
  constructor
  · unfold convertSingleRuleToSnortHeap
    simp only [hAlloc]
    rw [runPassesHeap_frame _ _ _ _ _ _ _ hne, hLookup_append_fresh h _ _ hlt, ho]
  · unfold convertSingleRuleToSuricataHeap
    simp only [hAlloc]
    rw [runPassesHeap_frame _ _ _ _ _ _ _ hne, hLookup_append_fresh h _ _ hlt, ho]

/-- Witness for C10 at a concrete one-object heap. -/
theorem conversion_preserves_original_rule_witness :
    heapWF ⟨[(0, [(str "sid", str "7")])], 1⟩ ∧
    hLookup (convertSingleRuleToSnortHeap ⟨[(0, [(str "sid", str "7")])], 1⟩
        { optionsRef := 0 }).1 0 = some [(str "sid", str "7")] := by
  refine ⟨?_, ?_⟩
  · intro p hp
    simp only [List.mem_singleton] at hp
    simp [hp]
  · exact (conversion_preserves_original_rule ⟨[(0, [(str "sid", str "7")])], 1⟩
      { optionsRef := 0 } [(str "sid", str "7")]
      (by intro p hp; simp only [List.mem_singleton] at hp; simp [hp]) rfl).1

/-- C1: batch conversion never raises and yields exactly one output line
per parsed rule, and the per-rule loop body catches a failing single-rule
conversion at that rule's boundary, logs an `error`-severity entry, and
substitutes the original rule's `formatRule` text. -/
theorem convert_batch_per_rule_isolation (rulesText : Chars)
    (f : Rule → Except Chars (Chars × List LogEntry)) (r : Rule) (e : Chars)
    (h : f r = Except.error e) :
    (convertToSnortList rulesText).length = (parseRules rulesText).length ∧
    (convertToSuricataList rulesText).length = (parseRules rulesText).length ∧
    (tryConvert f r).1 = formatRule r ∧
    ∃ en ∈ (tryConvert f r).2, en.severity = str "error" := by
  refine ⟨?_, ?_, ?_, ?_⟩
  · simp [convertToSnortList, convertToSnortPairs]
  · simp [convertToSuricataList, convertToSuricataPairs]
  · simp [tryConvert, h]
  · refine ⟨mkLog (str "Error converting rule: " ++ e) (str "error"), ?_, rfl⟩
    simp [tryConvert, h]

/-- Witness for C1: a concrete failing conversion function and a concrete
two-rule batch. -/
theorem convert_batch_per_rule_isolation_witness :
    ((fun _ : Rule => (Except.error (str "boom") :
        Except Chars (Chars × List LogEntry))) {} = Except.error (str "boom")) ∧
    (convertToSnortList (str "alert tcp a -> b (sid:5;)\nalert udp c -> d (sid:6;)")).length = 2 ∧
    (tryConvert (fun _ => Except.error (str "boom")) {}).1 = formatRule {} ∧
    ∃ en ∈ (tryConvert (fun _ : Rule => (Except.error (str "boom") :
        Except Chars (Chars × List LogEntry))) {}).2, en.severity = str "error" := by
  have h := convert_batch_per_rule_isolation
    (str "alert tcp a -> b (sid:5;)\nalert udp c -> d (sid:6;)")
    (fun _ => Except.error (str "boom")) {} (str "boom") rfl
  exact ⟨rfl, h.1.trans (by decide), h.2.2.1, h.2.2.2⟩

/-- A three-line batch whose second line is malformed. -/
def threeLineBatch : Chars :=
  str "alert udp 1.1.1.1 -> 2.2.2.2 (sid:1;)\nnot a rule\nalert udp 3.3.3.3 -> 4.4.4.4 (sid:2;)"

/-- C2 counterexample: on a batch of 3 lines whose 2nd is malformed,
`convertToSuricata` does not produce 3 output lines together with an
`error`-severity log entry — the malformed line is silently dropped by
`parseRules` and no error entry is ever appended. -/
theorem batch_of_three_counterexample :
    ¬ ((convertToSuricataList threeLineBatch).length = 3 ∧
      ∃ en ∈ convertToSuricataLog threeLineBatch, en.severity = str "error") := by
  decide

/-- C2 amended: on that batch the converter yields exactly 2 output lines
(one per line accepted by `isValidRule`), the 1st and 3rd rules fully
converted, and no `error`-severity log entry; the malformed line is
skipped without any log record. -/
theorem batch_of_three_amended :
    (convertToSuricataList threeLineBatch).length = 2 ∧
    convertToSuricataList threeLineBatch =
      [str "alert udp 1.1.1.1 -> 2.2.2.2 (sid:1; metadata:converted_from_snort;)",
       str "alert udp 3.3.3.3 -> 4.4.4.4 (sid:2; metadata:converted_from_snort;)"] ∧
    (convertToSuricataLog threeLineBatch).filter
      (fun en => en.severity == str "error") = [] := by
  decide

/-- A parsed Suricata-style rule carrying the dotted `http.user_agent`
option. -/
def uaRuleLine : Chars :=
  str "alert http a -> b (http.user_agent; content:\"Mozilla\"; sid:7;)"

/-- C3: the parser stores the dotted key `http.user_agent`, but
`convertSingleRuleToSnort` tests the property `http_user_agent`
(underscore spelling, which JS dot-access forces), so the option is left
in the converted rule, no `http.header` option is added, and no warning
about the user-agent fold is logged. -/
theorem http_user_agent_not_folded :
    objLookup (parseRule uaRuleLine).options (str "http.user_agent") = some (str "true") ∧
    objLookup (convertSingleRuleToSnortCore (parseRule uaRuleLine)).1.options
      (str "http.user_agent") = some (str "true") ∧
    objLookup (convertSingleRuleToSnortCore (parseRule uaRuleLine)).1.options
      (str "http.header") = none ∧
    (convertSingleRuleToSnortCore (parseRule uaRuleLine)).2.all
      (fun en => en.message ≠
        str "Converting http.user_agent to http.header with User-Agent pattern") := by
  decide

/-- A valid rule line whose quoted content payload contains a semicolon. -/
def quotedSemicolonLine : Chars := str "alert tcp a -> b (content:\"a;b\";)"

/-- C4: `formatRule` fails to re-quote a value containing a semicolon (its
quoting test covers only spaces and pipes), so `formatRule (parseRule l)`
is not structurally equivalent to `l`: re-parsing the formatted text
splits the content payload into two different options. -/
theorem format_parse_roundtrip_bug :
    isValidRule quotedSemicolonLine = true ∧
    (parseRule quotedSemicolonLine).options = [(str "content", str "a;b")] ∧
    formatRule (parseRule quotedSemicolonLine) = str "alert tcp a -> b (content:a;b;)" ∧
    (parseRule (formatRule (parseRule quotedSemicolonLine))).options =
      [(str "content", str "a"), (str "b", str "true")] := by
  decide

/-- A Snort rule with `sid:42`. -/
def sid42Rule : Chars := str "alert tcp a -> b (sid:42;)"

/-- C5 counterexample: converting the `sid:42` rule to Suricata and the
result back to Snort yields `sid:1000042`, not `sid:42` — the Suricata
direction leaves 42 unchanged (42 is not above the offset) and the Snort
direction then adds 1,000,000. -/
theorem sid_roundtrip_counterexample :
    objLookup (parseRule sid42Rule).options (str "sid") = some (str "42") ∧
    (parseRules (convertToSnortText (convertToSuricataText sid42Rule))).map
      (fun r => objLookup r.options (str "sid")) = [some (str "1000042")] ∧
    str "1000042" ≠ str "42" := by
  decide

/-- A line matching the valid-rule shape whose direction split fails. -/
def shapeOnlyLine : Chars := str "alert tcp -> b (x)"

/-- C8 counterexample: a line accepted by `isValidRule` whose internal
structure cannot be decomposed is not surfaced as a parse failure and not
skipped by `parseRules`: `parseRule` returns a degenerate `Rule` (header
fields filled, direction and options empty) and `parseRules` keeps it. -/
theorem undecomposable_line_counterexample :
    isValidRule shapeOnlyLine = true ∧
    decomposes shapeOnlyLine = false ∧
    parseRules shapeOnlyLine ≠ [] ∧
    parseRules shapeOnlyLine = [parseRule shapeOnlyLine] ∧
    (parseRule shapeOnlyLine).action = str "alert" ∧
    (parseRule shapeOnlyLine).direction = [] ∧
    (parseRule shapeOnlyLine).options = [] := by
  decide

/-- C8 amended: for every (single-line) input accepted by `isValidRule`
whose header/direction decomposition fails, `parseRule` still returns a
`Rule` — with empty source, direction, destination and options — rather
than surfacing a parse failure, and `parseRules` keeps that degenerate
rule instead of skipping the line. -/
theorem undecomposable_line_kept (line : Chars) (h1 : isValidRule line = true)
    (h2 : '\n' ∉ line) (h3 : decomposes line = false) :
    parseRules line = [parseRule line] ∧
    (parseRule line).source = [] ∧
    (parseRule line).direction = [] ∧
    (parseRule line).destination = [] ∧
    (parseRule line).options = [] := by
  have hsplit : splitChar '\n' line = [line] := splitChar_no_sep '\n' line h2
  have hparse : parseRules line = [parseRule line] := by
    unfold parseRules
    rw [hsplit]
    simp [List.filter, h1]
  refine ⟨hparse, ?_⟩
  unfold decomposes at h3
  cases hm : matchHeader line with
  | none => simp [parseRule, hm]
  | some t =>
    obtain ⟨act, proto, rest⟩ := t
    rw [hm] at h3
    cases hd : matchDirection rest with
    | none => simp [parseRule, hm, hd]
    | some q => simp [hd] at h3

/-- Witness for C8 amended at the concrete shape-only line. -/
theorem undecomposable_line_kept_witness :
    (isValidRule shapeOnlyLine = true ∧ '\n' ∉ shapeOnlyLine ∧
      decomposes shapeOnlyLine = false) ∧
    (parseRules shapeOnlyLine = [parseRule shapeOnlyLine] ∧
      (parseRule shapeOnlyLine).direction = []) := by
  have h := undecomposable_line_kept shapeOnlyLine (by decide) (by decide) (by decide)
  exact ⟨⟨by decide, by decide, by decide⟩, h.1, h.2.2.1⟩

theorem objLookup_foldl_insert (l : List (Chars × Chars)) (acc : OptObj) (k : Chars) :
    objLookup (l.foldl (fun o kv => objInsert o kv.1 kv.2) acc) k =
      ((l.reverse.find? (fun kv => kv.1 == k)).map Prod.snd).or (objLookup acc k) := by
  induction l generalizing acc with
  | nil => simp
  | cons kv l' ih =>
    simp only [List.foldl_cons, List.reverse_cons, List.find?_append]
    rw [ih]
    cases hf : l'.reverse.find? (fun kv => kv.1 == k) with
    | some x => simp
    | none =>
      by_cases hk : kv.1 = k
      · simp [objLookup_objInsert, hk, List.find?]
      · have hkb : (kv.1 == k) = false := by simp [hk]
        simp [objLookup_objInsert, hk, List.find?, hkb]

theorem filter_objInsert_len (o : OptObj) (k k' v : Chars) :
    ((objInsert o k' v).filter (fun kv => kv.1 == k)).length =
      if k' = k then max ((o.filter (fun kv => kv.1 == k)).length) 1
      else (o.filter (fun kv => kv.1 == k)).length := by
  induction o with
  | nil => by_cases hk : k' = k <;> simp [objInsert, hk]
  | cons a rest ih =>
    obtain ⟨ka, va⟩ := a
    by_cases h1 : ka = k'
    · subst h1
      by_cases h2 : ka = k
      · subst h2
        simp [objInsert, List.filter_cons]
      · have hb : (ka == k) = false := by simp [h2]
        simp [objInsert, List.filter_cons, hb, h2]
    · by_cases h2 : ka = k
      · subst h2
        have h3 : ¬ k' = ka := fun hh => h1 hh.symm
        have hb : (ka == ka) = true := by simp
        simp [objInsert, h1, List.filter_cons, hb, ih, h3]
      · have hb : (ka == k) = false := by simp [h2]
        by_cases h3 : k' = k
        · subst h3
          simp [objInsert, h1, h2, List.filter_cons, hb, ih]
        · simp [objInsert, h1, h2, List.filter_cons, hb, ih, h3]

theorem filter_foldl_insert_len (l : List (Chars × Chars)) (acc : OptObj) (k : Chars) :
    ((l.foldl (fun o kv => objInsert o kv.1 kv.2) acc).filter
        (fun kv => kv.1 == k)).length =
      if l.any (fun kv => kv.1 == k) then
        max ((acc.filter (fun kv => kv.1 == k)).length) 1
      else (acc.filter (fun kv => kv.1 == k)).length := by
  induction l generalizing acc with
  | nil => simp
  | cons kv l' ih =>
    simp only [List.foldl_cons, List.any_cons]
    rw [ih, filter_objInsert_len]
    by_cases hk : kv.1 = k
    · have hkb : (kv.1 == k) = true := by simp [hk]
      by_cases ha : l'.any (fun kv => kv.1 == k) = true <;>
        simp [hk, hkb, ha]
    · have hkb : (kv.1 == k) = false := by simp [hk]
      simp only [hkb, Bool.false_or, if_neg hk]

/-- C7: `parseOptions` collapses a repeated option key to the value of its
last occurrence among the parsed fields: the stored value is the last
occurrence's value, and the resulting object keeps exactly one entry for
that key, so all earlier occurrences are discarded. -/
theorem parse_options_last_occurrence_wins (s k : Chars)
    (h : 2 ≤ ((kvList s).filter (fun kv => kv.1 == k)).length) :
    objLookup (parseOptions s) k =
      ((kvList s).reverse.find? (fun kv => kv.1 == k)).map Prod.snd ∧
    ((parseOptions s).filter (fun kv => kv.1 == k)).length = 1 := by
  constructor
  · rw [parseOptions, objLookup_foldl_insert]
    simp [objLookup]
  · rw [parseOptions, filter_foldl_insert_len]
    have hany : (kvList s).any (fun kv => kv.1 == k) = true := by
      rcases hf : (kvList s).filter (fun kv => kv.1 == k) with _ | ⟨x, xs⟩
      · rw [hf] at h; simp at h
      · have hx : x ∈ (kvList s).filter (fun kv => kv.1 == k) :=
          hf ▸ List.mem_cons_self x xs
        rw [List.any_eq_true]
        exact ⟨x, (List.mem_filter.mp hx).1, (List.mem_filter.mp hx).2⟩
    simp [hany]

/-- An options string with a repeated `content` key. -/
def dupContentOpts : Chars := str "content:\"a\"; content:\"b\"; sid:1"

/-- Witness for C7 at a concrete options string with two `content`
clauses: only the last payload `b` survives. -/
theorem parse_options_last_occurrence_wins_witness :
    2 ≤ ((kvList dupContentOpts).filter (fun kv => kv.1 == str "content")).length ∧
    objLookup (parseOptions dupContentOpts) (str "content") =
      ((kvList dupContentOpts).reverse.find?
        (fun kv => kv.1 == str "content")).map Prod.snd ∧
    objLookup (parseOptions dupContentOpts) (str "content") = some (str "b") := by
  have h := parse_options_last_occurrence_wins dupContentOpts (str "content") (by decide)
  exact ⟨by decide, h.1, by decide⟩

theorem splitStep_quoted (v : Chars) (parts : List Chars) (cur : Chars)
    (hv : '"' ∉ v) :
    v.foldl splitStep ⟨parts, cur, true, some '"'⟩ =
      ⟨parts, cur ++ v, true, some '"'⟩ := by
  induction v generalizing cur with
  | nil => simp
  | cons c v' ih =>
    have hc : c ≠ '"' := fun hh => hv (hh ▸ List.mem_cons_self c v')
    have hv' : '"' ∉ v' := fun hm => hv (List.mem_cons_of_mem c hm)
    have h2 : ¬ ((some '"' : Option Char) = some c) := by
      intro hh
      exact hc (Option.some.inj hh).symm
    have hstep : splitStep ⟨parts, cur, true, some '"'⟩ c =
        ⟨parts, cur ++ [c], true, some '"'⟩ := by
      simp [splitStep, h2]
    rw [List.foldl_cons, hstep, ih (cur ++ [c]) hv']
    simp

theorem trim_of_nonspace_ends (a : Char) (mid : Chars) (b : Char)
    (ha : jsSpace a = false) (hb : jsSpace b = false) :
    trim (a :: (mid ++ [b])) = a :: (mid ++ [b]) := by
  unfold trim
  have h1 : (a :: (mid ++ [b])).dropWhile jsSpace = a :: (mid ++ [b]) := by
    simp [List.dropWhile_cons, ha]
  rw [h1]
  have h2 : (a :: (mid ++ [b])).reverse = b :: (mid.reverse ++ [a]) := by simp
  rw [h2]
  have h3 : (b :: (mid.reverse ++ [a])).dropWhile jsSpace = b :: (mid.reverse ++ [a]) := by
    simp [List.dropWhile_cons, hb]
  rw [h3, ← h2, List.reverse_reverse]

theorem splitStep_tail_concrete (ps : List Chars) :
    List.foldl splitStep ⟨ps, [], false, none⟩ (str " sid:1;") =
      ⟨ps ++ [str "sid:1"], [], false, none⟩ := by
  show List.foldl splitStep ⟨ps, [], false, none⟩
      [' ', 's', 'i', 'd', ':', '1', ';'] = ⟨ps ++ [str "sid:1"], [], false, none⟩
  simp [List.foldl_cons, List.foldl_nil, splitStep, trim, List.dropWhile, str, jsSpace]

theorem cur1_shape (v : Chars) :
    str "content:\"" ++ v ++ ['"'] = 'c' :: ((str "ontent:\"" ++ v) ++ ['"']) := by
  simp [str]

theorem trim_cur1 (v : Chars) :
    trim (str "content:\"" ++ v ++ ['"']) = str "content:\"" ++ v ++ ['"'] := by
  rw [cur1_shape]
  exact trim_of_nonspace_ends 'c' (str "ontent:\"" ++ v) '"' (by decide) (by decide)

theorem splitStep_closeQuote (ps : List Chars) (cur : Chars) :
    splitStep ⟨ps, cur, true, some '"'⟩ '"' = ⟨ps, cur ++ ['"'], false, none⟩ := rfl

theorem splitStep_semi (ps : List Chars) (cur : Chars) :
    splitStep ⟨ps, cur, false, none⟩ ';' =
      if (trim cur).isEmpty then ⟨ps, [], false, none⟩
      else ⟨ps ++ [trim cur], [], false, none⟩ := rfl

theorem splitOptions_quoted_sid (v : Chars) (hv : '"' ∉ v) :
    splitOptions (str "content:\"" ++ v ++ str "\"; sid:1;") =
      [str "content:\"" ++ v ++ ['"'], str "sid:1"] := by
  have hpre : List.foldl splitStep ⟨[], [], false, none⟩ (str "content:\"") =
      ⟨[], str "content:\"", true, some '"'⟩ := by decide
  have hsuf : str "\"; sid:1;" = '"' :: ';' :: str " sid:1;" := rfl
  have hstep1 : splitStep ⟨[], str "content:\"" ++ v, true, some '"'⟩ '"' =
      ⟨[], str "content:\"" ++ v ++ ['"'], false, none⟩ :=
    splitStep_closeQuote [] (str "content:\"" ++ v)
  have hstep2 : splitStep ⟨[], str "content:\"" ++ v ++ ['"'], false, none⟩ ';' =
      ⟨[str "content:\"" ++ v ++ ['"']], [], false, none⟩ := by
    have ht := trim_cur1 v
    have hne : (trim (str "content:\"" ++ v ++ ['"'])).isEmpty = false := by
      rw [ht, cur1_shape]
      rfl
    rw [splitStep_semi, hne, ht]
    simp
  unfold splitOptions
  rw [show str "content:\"" ++ v ++ str "\"; sid:1;" =
      (str "content:\"" ++ v) ++ str "\"; sid:1;" by simp]
  rw [List.foldl_append, List.foldl_append, hpre, splitStep_quoted v [] _ hv, hsuf]
  rw [List.foldl_cons, hstep1, List.foldl_cons, hstep2, splitStep_tail_concrete]
  rfl

theorem optionKV_quoted_content (v : Chars) :
    optionKV (str "content:\"" ++ v ++ ['"']) = some (str "content", v) := by
  have htrim : trim ('"' :: (v ++ ['"'])) = '"' :: (v ++ ['"']) :=
    trim_of_nonspace_ends '"' v '"' (by decide) (by decide)
  have hred : optionKV (str "content:\"" ++ v ++ ['"']) = some (str "content",
      match trim ('"' :: (v ++ ['"'])) with
      | '"' :: rest =>
        if (trim ('"' :: (v ++ ['"']))).getLast? = some '"' then rest.dropLast
        else trim ('"' :: (v ++ ['"']))
      | _ => trim ('"' :: (v ++ ['"']))) := rfl
  rw [hred, htrim]
  have hval : ('"' :: (v ++ ['"'])).getLast? = some '"' := by
    have h0 : (('"' :: v) ++ ['"']).getLast? = some '"' := List.getLast?_concat _
    simpa using h0
  simp [hval, List.dropLast_concat]

/-- C6: a semicolon or parenthesis inside a quoted payload is never
treated as an option separator: for every payload `v` without a double
quote, parsing `content:"v"; sid:1;` yields exactly the two options
`content ↦ v` (surrounding quotes stripped) and `sid ↦ 1`. -/
theorem quote_aware_option_split (v : Chars) (hv : '"' ∉ v) :
    parseOptions (str "content:\"" ++ v ++ str "\"; sid:1;") =
      [(str "content", v), (str "sid", str "1")] := by
  unfold parseOptions kvList
  rw [splitOptions_quoted_sid v hv]
  have hsid : optionKV (str "sid:1") = some (str "sid", str "1") := by decide
  have hne : ¬ (str "content" = str "sid") := by decide
  have h1 : List.filterMap optionKV [str "content:\"" ++ v ++ ['"'], str "sid:1"] =
      [(str "content", v), (str "sid", str "1")] := by
    simp only [List.filterMap_cons, optionKV_quoted_content, hsid, List.filterMap_nil]
  rw [h1]
  simp only [List.foldl_cons, List.foldl_nil, objInsert]
  rw [if_neg hne]

/-- Witness for C6 at the payload `a;b(c)` of the spec's example. -/
theorem quote_aware_option_split_witness :
    ('"' ∉ str "a;b(c)") ∧
    parseOptions (str "content:\"" ++ str "a;b(c)" ++ str "\"; sid:1;") =
      [(str "content", str "a;b(c)"), (str "sid", str "1")] ∧
    parseOptions (str "content:\"a;b(c)\"; sid:1;") =
      [(str "content", str "a;b(c)"), (str "sid", str "1")] :=
  ⟨by decide, quote_aware_option_split (str "a;b(c)") (by decide), by decide⟩

/-! Per-pass preservation of the `sid` option, used for the SID
renumbering round trip. -/

theorem sid_httpUriPass (r : Rule) (st : CState) :
    objLookup (httpUriPass r st).opts (str "sid") = objLookup st.opts (str "sid") := by
  simp only [httpUriPass, pushLog]
  split_ifs
  · exact objLookup_objInsert_ne _ _ _ _ (by decide)
  · rfl

theorem sid_httpUserAgentPass (r : Rule) (st : CState) :
    objLookup (httpUserAgentPass r st).opts (str "sid") = objLookup st.opts (str "sid") := by
  simp only [httpUserAgentPass, pushLog]
  split_ifs
  · rw [objLookup_objInsert_ne _ _ _ _ (by decide),
      objLookup_objDelete_ne _ _ _ (by decide)]
  · rw [objLookup_objDelete_ne _ _ _ (by decide)]
  · rfl

theorem sid_httpCookiePass (r : Rule) (st : CState) :
    objLookup (httpCookiePass r st).opts (str "sid") = objLookup st.opts (str "sid") := by
  simp only [httpCookiePass, pushLog]
  split_ifs
  · rw [objLookup_objInsert_ne _ _ _ _ (by decide),
      objLookup_objDelete_ne _ _ _ (by decide)]
  · rw [objLookup_objDelete_ne _ _ _ (by decide)]
  · rfl

theorem sid_httpHeaderInfoPass (r : Rule) (st : CState) :
    objLookup (httpHeaderInfoPass r st).opts (str "sid") = objLookup st.opts (str "sid") := by
  simp only [httpHeaderInfoPass, pushLog]
  split_ifs <;> rfl

theorem sid_httpRequestBodyPass (r : Rule) (st : CState) :
    objLookup (httpRequestBodyPass r st).opts (str "sid") = objLookup st.opts (str "sid") := by
  simp only [httpRequestBodyPass, pushLog]
  split_ifs
  · rw [objLookup_objDelete_ne _ _ _ (by decide),
      objLookup_objInsert_ne _ _ _ _ (by decide)]
  · rfl

theorem sid_tlsDropPass (r : Rule) (st : CState) :
    objLookup (tlsDropPass r st).opts (str "sid") = objLookup st.opts (str "sid") := by
  simp only [tlsDropPass, pushLog]
  split_ifs
  · rw [objLookup_objDelete_ne _ _ _ (by decide), objLookup_objDelete_ne _ _ _ (by decide),
      objLookup_objDelete_ne _ _ _ (by decide), objLookup_objDelete_ne _ _ _ (by decide),
      objLookup_objDelete_ne _ _ _ (by decide)]
  · rfl

theorem sid_fileDropPass (r : Rule) (st : CState) :
    objLookup (fileDropPass r st).opts (str "sid") = objLookup st.opts (str "sid") := by
  simp only [fileDropPass, pushLog]
  split_ifs
  · rw [objLookup_objDelete_ne _ _ _ (by decide), objLookup_objDelete_ne _ _ _ (by decide),
      objLookup_objDelete_ne _ _ _ (by decide), objLookup_objDelete_ne _ _ _ (by decide),
      objLookup_objDelete_ne _ _ _ (by decide), objLookup_objDelete_ne _ _ _ (by decide),
      objLookup_objDelete_ne _ _ _ (by decide), objLookup_objDelete_ne _ _ _ (by decide)]
  · rfl

theorem sid_protocolToSnortPass (r : Rule) (st : CState) :
    objLookup (protocolToSnortPass r st).opts (str "sid") = objLookup st.opts (str "sid") := by
  simp only [protocolToSnortPass, pushLog]
  split_ifs <;> rfl

theorem sid_dnsQueryDropPass (r : Rule) (st : CState) :
    objLookup (dnsQueryDropPass r st).opts (str "sid") = objLookup st.opts (str "sid") := by
  simp only [dnsQueryDropPass, pushLog]
  split_ifs
  · rw [objLookup_objDelete_ne _ _ _ (by decide)]
  · rfl

theorem sid_referencePass (r : Rule) (st : CState) :
    objLookup (referencePass r st).opts (str "sid") = objLookup st.opts (str "sid") := by
  simp only [referencePass, pushLog]
  split_ifs
  · exact objLookup_objInsert_ne _ _ _ _ (by decide)
  · rfl

theorem sid_classtypePass (r : Rule) (st : CState) :
    objLookup (classtypePass r st).opts (str "sid") = objLookup st.opts (str "sid") := by
  simp only [classtypePass, pushLog]
  split_ifs <;> rfl

theorem sid_urilenSnortPass (r : Rule) (st : CState) :
    objLookup (urilenSnortPass r st).opts (str "sid") = objLookup st.opts (str "sid") := by
  simp only [urilenSnortPass, pushLog]
  split_ifs <;> rfl

theorem sid_isdataatSnortPass (r : Rule) (st : CState) :
    objLookup (isdataatSnortPass r st).opts (str "sid") = objLookup st.opts (str "sid") := by
  simp only [isdataatSnortPass, pushLog]
  split_ifs
  · exact objLookup_objInsert_ne _ _ _ _ (by decide)
  · rfl

theorem sid_fastPatternPass (r : Rule) (st : CState) :
    objLookup (fastPatternPass r st).opts (str "sid") = objLookup st.opts (str "sid") := by
  simp only [fastPatternPass, pushLog]
  split_ifs
  · rw [objLookup_objDelete_ne _ _ _ (by decide)]
  · rfl

theorem sid_appidPass (r : Rule) (st : CState) :
    objLookup (appidPass r st).opts (str "sid") = objLookup st.opts (str "sid") := by
  simp only [appidPass, pushLog]
  split_ifs
  · rw [objLookup_objDelete_ne _ _ _ (by decide), objLookup_objDelete_ne _ _ _ (by decide)]
  · rfl

theorem sid_flowbitsPass (r : Rule) (st : CState) :
    objLookup (flowbitsPass r st).opts (str "sid") = objLookup st.opts (str "sid") := by
  simp only [flowbitsPass, pushLog]
  split_ifs <;> rfl

theorem sid_pcrePass (r : Rule) (st : CState) :
    objLookup (pcrePass r st).opts (str "sid") = objLookup st.opts (str "sid") := by
  simp only [pcrePass, pushLog]
  split_ifs <;> rfl

theorem sid_httpContentPass (r : Rule) (st : CState) :
    objLookup (httpContentPass r st).opts (str "sid") = objLookup st.opts (str "sid") := by
  simp only [httpContentPass, pushLog]
  split_ifs
  · rw [objLookup_objDelete_ne _ _ _ (by decide),
      objLookup_objInsert_ne _ _ _ _ (by decide)]
  · rfl

theorem sid_webPromotePass (r : Rule) (st : CState) :
    objLookup (webPromotePass r st).opts (str "sid") = objLookup st.opts (str "sid") := by
  simp only [webPromotePass, pushLog]
  split_ifs
  · exact objLookup_objInsert_ne _ _ _ _ (by decide)
  · rfl
  · rfl

theorem sid_tlsPromotePass (r : Rule) (st : CState) :
    objLookup (tlsPromotePass r st).opts (str "sid") = objLookup st.opts (str "sid") := by
  simp only [tlsPromotePass, pushLog]
  split_ifs <;> rfl

theorem sid_dnsPromotePass (r : Rule) (st : CState) :
    objLookup (dnsPromotePass r st).opts (str "sid") = objLookup st.opts (str "sid") := by
  simp only [dnsPromotePass, pushLog]
  split_ifs
  · exact objLookup_objInsert_ne _ _ _ _ (by decide)
  · rfl
  · rfl

theorem sid_httpHeaderOptimizePass (r : Rule) (st : CState) :
    objLookup (httpHeaderOptimizePass r st).opts (str "sid") = objLookup st.opts (str "sid") := by
  simp only [httpHeaderOptimizePass, pushLog]
  split_ifs
  · rw [objLookup_objInsert_ne _ _ _ _ (by decide),
      objLookup_objDelete_ne _ _ _ (by decide),
      objLookup_objInsert_ne _ _ _ _ (by decide)]
  · rw [objLookup_objDelete_ne _ _ _ (by decide),
      objLookup_objInsert_ne _ _ _ _ (by decide)]
  · rw [objLookup_objDelete_ne _ _ _ (by decide),
      objLookup_objInsert_ne _ _ _ _ (by decide)]
  · rfl
  · rfl

theorem sid_fileAddPass (r : Rule) (st : CState) :
    objLookup (fileAddPass r st).opts (str "sid") = objLookup st.opts (str "sid") := by
  simp only [fileAddPass, pushLog]
  split_ifs
  · exact objLookup_objInsert_ne _ _ _ _ (by decide)
  · rfl

theorem sid_urilenSuricataPass (r : Rule) (st : CState) :
    objLookup (urilenSuricataPass r st).opts (str "sid") = objLookup st.opts (str "sid") := by
  simp only [urilenSuricataPass, pushLog]
  split_ifs <;> rfl

theorem sid_isdataatSuricataPass (r : Rule) (st : CState) :
    objLookup (isdataatSuricataPass r st).opts (str "sid") = objLookup st.opts (str "sid") := by
  simp only [isdataatSuricataPass, pushLog]
  split_ifs
  · exact objLookup_objInsert_ne _ _ _ _ (by decide)
  · rfl

theorem sid_metadataPass (r : Rule) (st : CState) :
    objLookup (metadataPass r st).opts (str "sid") = objLookup st.opts (str "sid") := by
  simp only [metadataPass, pushLog]
  split_ifs
  · exact objLookup_objInsert_ne _ _ _ _ (by decide)
  · rfl

theorem sidSnortPass_42 (r : Rule) (st : CState)
    (h : objLookup st.opts (str "sid") = some (str "42")) :
    objLookup (sidSnortPass r st).opts (str "sid") = some (str "1000042") := by
  unfold sidSnortPass
  have hie : (str "42").isEmpty = false := rfl
  have hpi : jsParseInt (str "42") = some (42 : Int) := by decide
  have hnum : intToStr (1000042 : Int) = str "1000042" := by decide
  simp [h, hie, hpi, hnum, pushLog, objLookup_objInsert_self]

theorem sidSuricataPass_1000042 (r : Rule) (st : CState)
    (h : objLookup st.opts (str "sid") = some (str "1000042")) :
    objLookup (sidSuricataPass r st).opts (str "sid") = some (str "42") := by
  unfold sidSuricataPass
  have hie : (str "1000042").isEmpty = false := rfl
  have hpi : jsParseInt (str "1000042") = some (1000042 : Int) := by decide
  have hnum : intToStr (42 : Int) = str "42" := by decide
  simp [h, hie, hpi, hnum, pushLog, objLookup_objInsert_self]

theorem sid_snortCore (r : Rule)
    (h : objLookup r.options (str "sid") = some (str "42")) :
    objLookup (convertSingleRuleToSnortCore r).1.options (str "sid") =
      some (str "1000042") := by
  unfold convertSingleRuleToSnortCore
  simp only [runPasses, snortPasses, List.foldl_cons, List.foldl_nil]
  rw [sid_isdataatSnortPass, sid_urilenSnortPass, sid_classtypePass, sid_referencePass]
  apply sidSnortPass_42
  rw [sid_dnsQueryDropPass, sid_protocolToSnortPass, sid_fileDropPass, sid_tlsDropPass,
    sid_httpRequestBodyPass, sid_httpHeaderInfoPass, sid_httpCookiePass,
    sid_httpUserAgentPass, sid_httpUriPass]
  exact h

theorem sid_suricataCore (r : Rule)
    (h : objLookup r.options (str "sid") = some (str "1000042")) :
    objLookup (convertSingleRuleToSuricataCore r).1.options (str "sid") =
      some (str "42") := by
  unfold convertSingleRuleToSuricataCore
  simp only [runPasses, suricataPasses, List.foldl_cons, List.foldl_nil]
  rw [sid_metadataPass, sid_isdataatSuricataPass, sid_urilenSuricataPass, sid_fileAddPass]
  apply sidSuricataPass_1000042
  rw [sid_httpHeaderOptimizePass, sid_dnsPromotePass, sid_tlsPromotePass,
    sid_webPromotePass, sid_httpContentPass, sid_pcrePass, sid_flowbitsPass,
    sid_appidPass, sid_fastPatternPass]
  exact h

/-- C5 amended: SID renumbering under the 1,000,000 offset is involutive
in the Snort-then-Suricata order: a rule with `sid:42` converted to Snort
carries `sid:1000042`, and converting that result to Suricata restores
`sid:42`.  (The order stated by the claim — to Suricata and back to
Snort — instead ends at `sid:1000042`.) -/
theorem sid_offset_inverse_snort_then_suricata (r : Rule)
    (h : objLookup r.options (str "sid") = some (str "42")) :
    objLookup (convertSingleRuleToSnortCore r).1.options (str "sid") =
      some (str "1000042") ∧
    objLookup (convertSingleRuleToSuricataCore
        (convertSingleRuleToSnortCore r).1).1.options (str "sid") =
      some (str "42") := by
  have h1 := sid_snortCore r h
  exact ⟨h1, sid_suricataCore _ h1⟩

/-- Witness for C5 amended at a concrete rule with `sid:42`. -/
theorem sid_offset_inverse_witness :
    objLookup ({ options := [(str "sid", str "42")] } : Rule).options (str "sid") =
      some (str "42") ∧
    objLookup (convertSingleRuleToSuricataCore (convertSingleRuleToSnortCore
        { options := [(str "sid", str "42")] }).1).1.options (str "sid") =
      some (str "42") :=
  ⟨by decide, (sid_offset_inverse_snort_then_suricata
    { options := [(str "sid", str "42")] } (by decide)).2⟩

end SiemConv
